import Mathlib

/-!
Formal model of the pop3d POP3 server (Go sources under internal/pop3).

The definitions below are shallow embeddings of the Go functions:
pure Go functions become Lean functions, methods that mutate their
receiver become functions returning the updated value, and the
session-pipe store (which performs I/O on inherited file descriptors)
becomes a state machine over an explicit `SPState` record that tracks
the bytes exchanged on each pipe.  Go `int`/`int64` are modelled as
`Int`; byte streams are modelled as `List Char`.
-/

namespace Pop3D

/-- Characters the wire protocol treats as whitespace; model of the
ASCII fragment of Go's `unicode.IsSpace` as used by `strings.Fields`
and `strings.TrimSpace` on protocol lines. -/
def isSpaceGo (c : Char) : Bool :=
  c = ' ' || c = '\t' || c = '\n' || c = '\r'

/-- Character-list core of Go's `strings.HasPrefix`: first argument is
the candidate prefix, second the string searched. -/
def listPfx : List Char → List Char → Bool
  | [], _ => true
  | _ :: _, [] => false
  | a :: as, b :: bs => a == b && listPfx as bs

/-- Model of Go's `strings.HasPrefix s p`. -/
def strHasPfx (s p : String) : Bool := listPfx p.data s.data

/-- Model of Go's `strings.TrimRight(s, "\r\n")`: strip trailing CR/LF. -/
def trimRightCRLF (s : String) : String :=
  ⟨(s.data.reverse.dropWhile (fun c => c = '\r' || c = '\n')).reverse⟩

/-- Model of Go's `strings.TrimPrefix s p`. -/
def trimPfx (s p : String) : String :=
  if strHasPfx s p then ⟨s.data.drop p.data.length⟩ else s

/-- Model of Go's `strings.TrimSpace` (ASCII whitespace). -/
def trimSpace (s : String) : String :=
  ⟨((s.data.dropWhile isSpaceGo).reverse.dropWhile isSpaceGo).reverse⟩

/-- Accumulator core of the `strings.Fields` model: `cur` holds the
current word reversed. -/
def fieldsAux : List Char → List Char → List String
  | [], cur => if cur.isEmpty then [] else [⟨cur.reverse⟩]
  | c :: restChars, cur =>
    if isSpaceGo c then
      if cur.isEmpty then fieldsAux restChars []
      else ⟨cur.reverse⟩ :: fieldsAux restChars []
    else fieldsAux restChars (c :: cur)

/-- Model of Go's `strings.Fields`: split on runs of whitespace. -/
def fields (s : String) : List String := fieldsAux s.data []

/-- ASCII decimal digit test (as `strconv` uses on base-10 input). -/
def isDigitGo (c : Char) : Bool := '0' ≤ c && c ≤ '9'

/-- Numeric value of an ASCII digit. -/
def digitVal (c : Char) : Nat := c.toNat - 48

/-- Left-to-right accumulation of a decimal digit string. -/
def digitsValAux (acc : Nat) : List Char → Option Nat
  | [] => some acc
  | c :: cs => if isDigitGo c then digitsValAux (acc * 10 + digitVal c) cs else none

/-- Model of Go's `strconv.Atoi` / `strconv.ParseInt(s, 10, 64)`:
optional sign then at least one decimal digit.  The 64-bit range check
is not modelled; no property below involves values outside that range. -/
def goParseInt (s : String) : Option Int :=
  match s.data with
  | [] => none
  | c :: restChars =>
    if c = '-' then
      (if restChars.isEmpty then none
       else (digitsValAux 0 restChars).map (fun n => -(n : Int)))
    else if c = '+' then
      (if restChars.isEmpty then none
       else (digitsValAux 0 restChars).map (fun n => (n : Int)))
    else (digitsValAux 0 (c :: restChars)).map (fun n => (n : Int))

/-- Model of Go's `strings.ToUpper` on ASCII command names. -/
def goToUpper (s : String) : String := ⟨s.data.map Char.toUpper⟩

/-- Model of Go's `strings.EqualFold` restricted to ASCII. -/
def equalFold (a b : String) : Bool := goToUpper a == goToUpper b

/-! ## Data model (session.go, command.go, msgstore interfaces) -/

/-- `msgstore.MessageInfo`: per-message identifier and size in octets. -/
structure MessageInfo where
  uid : String
  size : Int
deriving DecidableEq

/-- POP3 protocol state (session.go `State`). -/
inductive State where
  | StateAuthorization
  | StateTransaction
  | StateUpdate
deriving DecidableEq

/-- TLS state of the connection (session.go `TLSState`). -/
inductive TLSState where
  | TLSStateNone
  | TLSStateActive
deriving DecidableEq

/-- Listener mode (config.ListenerMode). -/
inductive ListenerMode where
  | ModePop3
  | ModePop3s
deriving DecidableEq

/-- The single message-store method the embedded session code calls
(`msgstore.MessageStore.List`); the store is an external collaborator
behind an interface in the Go code. -/
structure MessageStore where
  list : String → Except String (List MessageInfo)

/-- `auth.User`: carries the fully-qualified mailbox identifier. -/
structure AuthUser where
  mailbox : String

/-- `auth.AuthSession`: credential-bound token; `user` may be nil. -/
structure AuthSession where
  user : Option AuthUser

/-- A configured domain (auth_commands.go `DomainProvider` result):
domain-specific auth agent and optional message store. -/
structure Domain where
  authAgent : String → String → Except String AuthSession
  messageStore : Option MessageStore

/-- The POP3 `Session` struct (session.go).  The go-sasl server object
is represented by the flag `saslServerSet` plus the mechanism name; the
server's behaviour is external-library code. -/
structure Session where
  state : State
  tlsState : TLSState
  hostname : String
  listenerMode : ListenerMode
  tlsConfigPresent : Bool
  username : String
  authSession : Option AuthSession
  saslServerSet : Bool
  saslMech : String
  mailbox : String
  store : Option MessageStore
  messageList : Option (List MessageInfo)
  deletedSet : List Int

/-- Errors returned by Session mailbox accessors (session errors plus a
wrapper for store failures propagated by InitializeMailbox). -/
inductive SessionError where
  | ErrMailboxNotInitialized
  | ErrNoSuchMessage
  | ErrMessageDeleted
  | ErrStore (msg : String)
deriving DecidableEq

/-- `Session.IsTLSActive`. -/
def Session.IsTLSActive (s : Session) : Bool :=
  decide (s.tlsState = TLSState.TLSStateActive)

/-- `Session.SetUsername`. -/
def Session.SetUsername (s : Session) (username : String) : Session :=
  { s with username := username }

/-- `Session.SetAuthenticated`: transition to TRANSACTION and store the
auth session. -/
def Session.SetAuthenticated (s : Session) (a : AuthSession) : Session :=
  { s with state := State.StateTransaction, authSession := some a }

/-- `Session.SetSASLServer` (the server object itself is external). -/
def Session.SetSASLServer (s : Session) (mech : String) : Session :=
  { s with saslMech := mech, saslServerSet := true }

/-- `Session.ClearSASL`. -/
def Session.ClearSASL (s : Session) : Session :=
  { s with saslMech := "", saslServerSet := false }

/-- Loop body of `Session.MessageCount`: Go iterates `for i := range
s.messageList` counting indexes whose 1-based number is unmarked. -/
def countVisibleAux (del : List Int) : Nat → List MessageInfo → Int
  | _, [] => 0
  | i, _ :: restMsgs =>
    (if del.contains ((i : Int) + 1) then 0 else 1) + countVisibleAux del (i + 1) restMsgs

/-- `Session.MessageCount`: number of non-deleted messages; 0 when the
message list was never initialised (nil). -/
def Session.MessageCount (s : Session) : Int :=
  match s.messageList with
  | none => 0
  | some msgs => countVisibleAux s.deletedSet 0 msgs

/-- Loop body of `Session.TotalSize`. -/
def sumVisibleAux (del : List Int) : Nat → List MessageInfo → Int
  | _, [] => 0
  | i, m :: restMsgs =>
    (if del.contains ((i : Int) + 1) then 0 else m.size) + sumVisibleAux del (i + 1) restMsgs

/-- `Session.TotalSize`: total size of non-deleted messages; 0 when the
message list is nil. -/
def Session.TotalSize (s : Session) : Int :=
  match s.messageList with
  | none => 0
  | some msgs => sumVisibleAux s.deletedSet 0 msgs

/-- `Session.GetMessage`: look up message info by 1-based number. -/
def Session.GetMessage (s : Session) (msgNum : Int) : Except SessionError MessageInfo :=
  match s.messageList with
  | none => .error SessionError.ErrMailboxNotInitialized
  | some msgs =>
    if msgNum < 1 ∨ msgNum > (msgs.length : Int) then .error SessionError.ErrNoSuchMessage
    else if s.deletedSet.contains msgNum then .error SessionError.ErrMessageDeleted
    else .ok (msgs.getD (msgNum - 1).toNat ⟨"", 0⟩)

/-- `Session.MarkDeleted`: add a 1-based number to the deletion set
(Go inserts into the `deletedSet` map; consing models the insertion,
membership being what every reader tests). -/
def Session.MarkDeleted (s : Session) (msgNum : Int) : Except SessionError Session :=
  match s.messageList with
  | none => .error SessionError.ErrMailboxNotInitialized
  | some msgs =>
    if msgNum < 1 ∨ msgNum > (msgs.length : Int) then .error SessionError.ErrNoSuchMessage
    else if s.deletedSet.contains msgNum then .error SessionError.ErrMessageDeleted
    else .ok { s with deletedSet := msgNum :: s.deletedSet }

/-- `Session.ResetDeletions`: clear all deletion marks (RSET). -/
def Session.ResetDeletions (s : Session) : Session :=
  { s with deletedSet := [] }

/-- `Session.InitializeMailbox`: bind the mailbox, reset deletions and
load the message list from the store. -/
def Session.InitializeMailbox (s : Session) (store : MessageStore) : Except SessionError Session :=
  match s.authSession with
  | none => .error SessionError.ErrMailboxNotInitialized
  | some a =>
    match a.user with
    | none => .error SessionError.ErrMailboxNotInitialized
    | some u =>
      let s1 := { s with mailbox := u.mailbox, store := some store, deletedSet := [] }
      match store.list s1.mailbox with
      | .error e => .error (SessionError.ErrStore e)
      | .ok msgs => .ok { s1 with messageList := some msgs }

/-- `Response` (command.go): status, message, optional payload lines,
or a SASL continuation. -/
structure Response where
  OK : Bool := false
  Message : String := ""
  Lines : List String := []
  Continuation : Bool := false
  Challenge : String := ""
deriving DecidableEq

/-! ## Command executors (transaction_commands.go, auth_commands.go)

Each Go `Execute(ctx, sess, conn, args)` mutates the session through
its pointer; the model returns the response together with the updated
session.  Logging calls have no observable effect and are omitted. -/

/-- `statCommand.Execute`. -/
def statCommandExecute (sess : Session) (args : List String) : Response × Session :=
  if sess.state ≠ State.StateTransaction then
    ({ OK := false, Message := "Command not valid in this state" }, sess)
  else if args.length > 0 then
    ({ OK := false, Message := "STAT command takes no arguments" }, sess)
  else
    ({ OK := true, Message := toString sess.MessageCount ++ " " ++ toString sess.TotalSize }, sess)

/-- `deleCommand.Execute`. -/
def deleCommandExecute (sess : Session) (args : List String) : Response × Session :=
  if sess.state ≠ State.StateTransaction then
    ({ OK := false, Message := "Command not valid in this state" }, sess)
  else if args.length ≠ 1 then
    ({ OK := false, Message := "DELE command requires message number" }, sess)
  else
    match goParseInt (args.getD 0 "") with
    | none => ({ OK := false, Message := "Invalid message number" }, sess)
    | some msgNum =>
      match sess.MarkDeleted msgNum with
      | .error SessionError.ErrNoSuchMessage =>
        ({ OK := false, Message := "No such message" }, sess)
      | .error SessionError.ErrMessageDeleted =>
        ({ OK := false, Message := "Message already deleted" }, sess)
      | .error _ => ({ OK := false, Message := "Failed to delete message" }, sess)
      | .ok sess1 =>
        ({ OK := true, Message := "message " ++ toString msgNum ++ " deleted" }, sess1)

/-- `rsetCommand.Execute`: clear deletions, then report the count. -/
def rsetCommandExecute (sess : Session) (args : List String) : Response × Session :=
  if sess.state ≠ State.StateTransaction then
    ({ OK := false, Message := "Command not valid in this state" }, sess)
  else if args.length > 0 then
    ({ OK := false, Message := "RSET command takes no arguments" }, sess)
  else
    let sess1 := sess.ResetDeletions
    ({ OK := true, Message := "maildrop has " ++ toString sess1.MessageCount ++ " messages" }, sess1)

/-- `userCommand.Execute`. -/
def userCommandExecute (sess : Session) (args : List String) : Response × Session :=
  if sess.state ≠ State.StateAuthorization then
    ({ OK := false, Message := "Command not valid in this state" }, sess)
  else if !sess.IsTLSActive then
    ({ OK := false, Message := "TLS required for authentication" }, sess)
  else if args.length ≠ 1 then
    ({ OK := false, Message := "USER command requires username argument" }, sess)
  else
    let username := args.getD 0 ""
    if username = "" then ({ OK := false, Message := "Username cannot be empty" }, sess)
    else ({ OK := true, Message := "User " ++ username ++ " accepted" }, sess.SetUsername username)

/-- `splitUsername`: split at the last `@`. -/
def splitUsername (username : String) : String × String :=
  match username.data.reverse.findIdx? (fun c => c = '@') with
  | none => (username, "")
  | some j =>
    let idx := username.data.length - 1 - j
    (⟨username.data.take idx⟩, ⟨username.data.drop (idx + 1)⟩)

/-- The fields of `passCommand`: auth provider, optional global store,
optional domain provider (all external interfaces in the Go code). -/
structure PassCmd where
  authProvider : String → String → Except String AuthSession
  msgStore : Option MessageStore
  domainProvider : Option (String → Option Domain)

/-- Global-provider tail of `passCommand.Execute` (the code Go reaches
when no domain-specific provider applies). -/
def passGlobalAuth (p : PassCmd) (sess : Session) (username password : String) :
    Response × Session :=
  match p.authProvider username password with
  | .error _ => ({ OK := false, Message := "Authentication failed" }, sess)
  | .ok a =>
    let sess1 := sess.SetAuthenticated a
    match p.msgStore with
    | some st =>
      match sess1.InitializeMailbox st with
      | .error _ => ({ OK := false, Message := "Failed to access mailbox" }, sess1)
      | .ok sess2 => ({ OK := true, Message := "Logged in as " ++ username }, sess2)
    | none => ({ OK := true, Message := "Logged in as " ++ username }, sess1)

/-- `passCommand.Execute`. -/
def passCommandExecute (p : PassCmd) (sess : Session) (args : List String) :
    Response × Session :=
  if sess.state ≠ State.StateAuthorization then
    ({ OK := false, Message := "Command not valid in this state" }, sess)
  else if !sess.IsTLSActive then
    ({ OK := false, Message := "TLS required for authentication" }, sess)
  else
    let username := sess.username
    if username = "" then
      ({ OK := false, Message := "No username specified" }, sess)
    else if args.length ≠ 1 then
      ({ OK := false, Message := "PASS command requires password argument" }, sess)
    else
      let password := args.getD 0 ""
      let lp := splitUsername username
      match p.domainProvider with
      | some dp =>
        if lp.2 ≠ "" then
          match dp lp.2 with
          | none => ({ OK := false, Message := "Authentication failed" }, sess)
          | some d =>
            match d.authAgent lp.1 password with
            | .error _ => ({ OK := false, Message := "Authentication failed" }, sess)
            | .ok a =>
              let sess1 := sess.SetAuthenticated a
              match d.messageStore with
              | some st =>
                match sess1.InitializeMailbox st with
                | .error _ => ({ OK := false, Message := "Failed to access mailbox" }, sess1)
                | .ok sess2 => ({ OK := true, Message := "Logged in as " ++ username }, sess2)
              | none => ({ OK := true, Message := "Logged in as " ++ username }, sess1)
        else passGlobalAuth p sess username password
      | none => passGlobalAuth p sess username password

/-- `SupportedSASLMechanisms` (sasl.go); go-sasl's `sasl.Plain` is the
string "PLAIN". -/
def SupportedSASLMechanisms : List String := ["PLAIN"]

/-- The fields of `authCommand`. -/
structure AuthCmd where
  authProvider : String → String → Except String AuthSession
  msgStore : Option MessageStore
  domainProvider : Option (String → Option Domain)

/-- `authCommand.Execute`.  The PLAIN exchange itself is driven by the
external go-sasl library (`sasl.NewPlainServer` + `Next`), which also
invokes the command's authenticator callback; that external machinery,
together with `processSASLStep`, is abstracted as `plainStep` applied
to the decoded initial response.  Base64 decoding
(`DecodeSASLResponse`, a thin wrapper over `encoding/base64`) is
abstracted as `decodeB64`.  Every property proved below is decided
before either abstraction is reached. -/
def authCommandExecute (a : AuthCmd)
    (plainStep : Session → List Nat → Response × Session)
    (decodeB64 : String → Except String (List Nat))
    (sess : Session) (args : List String) : Response × Session :=
  if sess.state ≠ State.StateAuthorization then
    ({ OK := false, Message := "Command not valid in this state" }, sess)
  else if !sess.IsTLSActive then
    ({ OK := false, Message := "TLS required for authentication" }, sess)
  else if args.length < 1 then
    ({ OK := false, Message := "AUTH command requires mechanism argument" }, sess)
  else
    let mechanism := goToUpper (args.getD 0 "")
    if !(SupportedSASLMechanisms.any (fun m => equalFold m mechanism)) then
      ({ OK := false, Message := "Unsupported mechanism: " ++ mechanism }, sess)
    else if mechanism = "PLAIN" then
      let sess1 := sess.SetSASLServer mechanism
      if args.length > 1 then
        if args.getD 1 "" = "=" then plainStep sess1 []
        else
          match decodeB64 (args.getD 1 "") with
          | .error _ => ({ OK := false, Message := "Invalid base64 encoding" }, sess1.ClearSASL)
          | .ok resp => plainStep sess1 resp
      else
        ({ Continuation := true, Challenge := "" }, sess1)
    else
      ({ OK := false, Message := "Unsupported mechanism: " ++ mechanism }, sess)

/-! ## Response rendering (command.go `Response.String`) -/

/-- Leading-dot test used by the byte-stuffing branch
(`strings.HasPrefix(line, ".")`: true iff the first byte is `.`). -/
def startsWithDot (s : String) : Bool :=
  match s.data with
  | c :: _ => c == '.'
  | [] => false

/-- `Response.String`: status line; for multi-line responses each
payload line is byte-stuffed and CRLF-terminated, then the terminator
`.\r\n` is appended.  The builder is modelled by a left fold. -/
def Response.render (r : Response) : String :=
  if r.Continuation then
    "+ " ++ r.Challenge ++ "\r\n"
  else
    let status := (if r.OK then "+OK" else "-ERR")
      ++ (if r.Message ≠ "" then " " ++ r.Message else "") ++ "\r\n"
    if r.Lines.length > 0 then
      (r.Lines.foldl
        (fun acc line =>
          acc ++ (if startsWithDot line then "." else "") ++ line ++ "\r\n")
        status) ++ ".\r\n"
    else status

/-! ## Session-pipe store (sessionpipe.go) -/

/-- Sanity cap on the message count a mail-session may report. -/
def maxListCount : Int := 10000000

/-- Observable state of a `sessionPipeStore` together with the pipes it
owns: data written to the auth pipe (fd 4) and its close count, the
unread bytes available from the mail-session (fd 5), and the commands
written to it (fd 6). -/
structure SPState where
  ready : Bool := false
  handshakeDone : Bool := false
  authWriteAttempts : Nat := 0
  authWrites : List String := []
  authCloseCount : Nat := 0
  sessIn : List Char := []
  sessOut : List String := []
deriving DecidableEq

/-- Environment describing whether the pipe writes performed by the
store succeed; models I/O failures injected by the operating system. -/
structure PipeEnv where
  authWriteOk : Bool := true
  sessWriteOk : Bool := true
deriving DecidableEq

/-- A write to fd 6 (`fmt.Fprintf(p.sessW, …)`). -/
def sessWrite (env : PipeEnv) (st : SPState) (data : String) : Except String SPState :=
  if env.sessWriteOk then .ok { st with sessOut := st.sessOut ++ [data] }
  else .error "pipe write failure"

/-- `bufio.Reader.ReadString('\n')`: the line including its delimiter,
or an error when the stream ends first. -/
def readLine (cs : List Char) : Except String (String × List Char) :=
  match cs.dropWhile (fun c => c != '\n') with
  | [] => .error "EOF"
  | _ :: restChars => .ok (⟨cs.takeWhile (fun c => c != '\n') ++ ['\n']⟩, restChars)

/-- `validateToken`. -/
def validateToken (label s : String) : Except String Unit :=
  if s = "" then .error (label ++ " must not be empty")
  else if s.data.any (fun c => c = ' ' || c = '\t' || c = '\r' || c = '\n') then
    .error (label ++ " contains illegal whitespace")
  else .ok ()

/-- Modelled from the spec: the implementation of `writeAuthSignal` is
not among the sources (only its caller in sessionpipe.go and the reader
`readAuthSignal` are); per the spec it writes the single three-line
record `AUTH 1\r\nUSER:<username>\r\nEND\r\n` to the auth pipe. -/
def authSignalText (username : String) : String :=
  "AUTH 1\r\nUSER:" ++ username ++ "\r\nEND\r\n"

/-- `sessionPipeStore.handshake`: set `handshakeDone`, then (in order)
validate the mailbox, write the auth signal, send `MAILBOX`, read the
reply; the deferred close of the auth pipe runs on every path. -/
def handshake (env : PipeEnv) (st0 : SPState) (mailbox : String) :
    Except String Unit × SPState :=
  let st := { st0 with handshakeDone := true }
  let r : Except String Unit × SPState :=
    match validateToken "mailbox" mailbox with
    | .error e => (.error e, st)
    | .ok _ =>
      let st1 := { st with authWriteAttempts := st.authWriteAttempts + 1 }
      if !env.authWriteOk then (.error "write auth signal: pipe write failure", st1)
      else
        let st2 := { st1 with authWrites := st1.authWrites ++ [authSignalText mailbox] }
        match sessWrite env st2 ("MAILBOX " ++ mailbox ++ "\r\n") with
        | .error e => (.error ("send MAILBOX: " ++ e), st2)
        | .ok st3 =>
          match readLine st3.sessIn with
          | .error e => (.error ("read MAILBOX response: " ++ e), st3)
          | .ok (line, restIn) =>
            let st4 := { st3 with sessIn := restIn }
            if !(strHasPfx (trimRightCRLF line) "+OK") then
              (.error ("MAILBOX rejected: " ++ trimRightCRLF line), st4)
            else (.ok (), { st4 with ready := true })
  (r.1, { r.2 with authCloseCount := r.2.authCloseCount + 1 })

/-- `sessionPipeStore.ensureReady`. -/
def ensureReady (env : PipeEnv) (st : SPState) (mailbox : String) :
    Except String Unit × SPState :=
  if st.ready then (.ok (), st)
  else if st.handshakeDone then
    (.error "session pipe handshake already failed; store is not usable", st)
  else handshake env st mailbox

/-- `sessionPipeStore.readOK`. -/
def readOK (st : SPState) (op : String) : Except String Unit × SPState :=
  match readLine st.sessIn with
  | .error e => (.error (op ++ ": read response: " ++ e), st)
  | .ok (line, restIn) =>
    let st1 := { st with sessIn := restIn }
    if !(strHasPfx (trimRightCRLF line) "+OK") then
      (.error (op ++ " error: " ++ trimRightCRLF line), st1)
    else (.ok (), st1)

/-- Entry-reading loop of `sessionPipeStore.List`. -/
def readListEntries (st : SPState) (acc : List MessageInfo) :
    Nat → Except String (List MessageInfo) × SPState
  | 0 => (.ok acc, st)
  | n + 1 =>
    match readLine st.sessIn with
    | .error e => (.error ("LIST entry: " ++ e), st)
    | .ok (line, restIn) =>
      let st1 := { st with sessIn := restIn }
      let entry := trimRightCRLF line
      let f := fields entry
      if f.length < 2 then (.error ("LIST entry: malformed " ++ entry), st1)
      else
        match goParseInt (f.getD 1 "") with
        | none => (.error ("LIST entry: invalid size " ++ f.getD 1 ""), st1)
        | some size => readListEntries st1 (acc ++ [{ uid := f.getD 0 "", size := size }]) n

/-- `sessionPipeStore.List`. -/
def spList (env : PipeEnv) (st : SPState) (mailbox : String) :
    Except String (List MessageInfo) × SPState :=
  match ensureReady env st mailbox with
  | (.error e, st1) => (.error e, st1)
  | (.ok _, st1) =>
    match sessWrite env st1 "LIST\r\n" with
    | .error e => (.error ("send LIST: " ++ e), st1)
    | .ok st2 =>
      match readLine st2.sessIn with
      | .error e => (.error ("read LIST header: " ++ e), st2)
      | .ok (line, restIn) =>
        let st3 := { st2 with sessIn := restIn }
        let header := trimRightCRLF line
        if !(strHasPfx header "+OK") then (.error ("LIST error: " ++ header), st3)
        else
          let fs := fields (trimPfx header "+OK")
          if fs.length = 0 then (.error ("LIST: missing count in " ++ header), st3)
          else
            match goParseInt (fs.getD 0 "") with
            | none => (.error ("LIST: invalid count " ++ fs.getD 0 ""), st3)
            | some count =>
              if count < 0 ∨ count > maxListCount then
                (.error ("LIST: unreasonable count " ++ toString count), st3)
              else readListEntries st3 [] count.toNat

/-- `sessionPipeStore.Stat`. -/
def spStat (env : PipeEnv) (st : SPState) (mailbox : String) :
    Except String (Int × Int) × SPState :=
  match ensureReady env st mailbox with
  | (.error e, st1) => (.error e, st1)
  | (.ok _, st1) =>
    match sessWrite env st1 "STAT\r\n" with
    | .error e => (.error ("send STAT: " ++ e), st1)
    | .ok st2 =>
      match readLine st2.sessIn with
      | .error e => (.error ("read STAT response: " ++ e), st2)
      | .ok (line, restIn) =>
        let st3 := { st2 with sessIn := restIn }
        let l := trimRightCRLF line
        if !(strHasPfx l "+OK") then (.error ("STAT error: " ++ l), st3)
        else
          let fs := fields (trimPfx l "+OK")
          if fs.length < 2 then (.error ("STAT: malformed response " ++ l), st3)
          else
            match goParseInt (fs.getD 0 "") with
            | none => (.error ("STAT: invalid count " ++ fs.getD 0 ""), st3)
            | some count =>
              match goParseInt (fs.getD 1 "") with
              | none => (.error ("STAT: invalid total " ++ fs.getD 1 ""), st3)
              | some total => (.ok (count, total), st3)

/-- `sessionPipeStore.Retrieve`: validate the UID, send `GET`, parse
the `+DATA <size>` header and return the announced size, which is the
limit of the `io.LimitReader` wrapped in the `drainingCloser`.  Note:
no `ensureReady` call and no check on the sign of the size. -/
def spRetrieve (env : PipeEnv) (st : SPState) (mailbox uid : String) :
    Except String Int × SPState :=
  match validateToken "uid" uid with
  | .error e => (.error e, st)
  | .ok _ =>
    match sessWrite env st ("GET " ++ uid ++ "\r\n") with
    | .error e => (.error ("send GET: " ++ e), st)
    | .ok st1 =>
      match readLine st1.sessIn with
      | .error e => (.error ("read GET response: " ++ e), st1)
      | .ok (line, restIn) =>
        let st2 := { st1 with sessIn := restIn }
        let l := trimRightCRLF line
        if !(strHasPfx l "+DATA") then (.error ("GET error: " ++ l), st2)
        else
          let sizeStr := trimSpace (trimPfx l "+DATA")
          match goParseInt sizeStr with
          | none => (.error ("GET: invalid data size " ++ sizeStr), st2)
          | some size => (.ok size, st2)

/-- `sessionPipeStore.Delete`: validate the UID, send `DELETE`, read
the reply.  Note: no `ensureReady` call. -/
def spDelete (env : PipeEnv) (st : SPState) (mailbox uid : String) :
    Except String Unit × SPState :=
  match validateToken "uid" uid with
  | .error e => (.error e, st)
  | .ok _ =>
    match sessWrite env st ("DELETE " ++ uid ++ "\r\n") with
    | .error e => (.error ("send DELETE: " ++ e), st)
    | .ok st1 => readOK st1 "DELETE"

/-- `sessionPipeStore.Expunge`. -/
def spExpunge (env : PipeEnv) (st : SPState) (mailbox : String) :
    Except String Unit × SPState :=
  match ensureReady env st mailbox with
  | (.error e, st1) => (.error e, st1)
  | (.ok _, st1) =>
    match sessWrite env st1 "COMMIT\r\n" with
    | .error e => (.error ("send COMMIT: " ++ e), st1)
    | .ok st2 => readOK st2 "COMMIT"

/-- Reading `k` bytes in total from the `drainingCloser` returned by
Retrieve: the wrapped `io.LimitReader` yields at most its remaining
allowance and at most what the pipe still holds.  Returns the new
store state and the reader's new remaining allowance. -/
def readerReadN (st : SPState) (remaining : Int) (k : Nat) : SPState × Int :=
  let c := min k (min remaining.toNat st.sessIn.length)
  ({ st with sessIn := st.sessIn.drop c }, remaining - (c : Int))

/-- `drainingCloser.Close`: `io.Copy(io.Discard, d.r)` consumes
whatever the LimitReader still allows, bounded by the available bytes. -/
def readerClose (st : SPState) (remaining : Int) : SPState :=
  let c := min remaining.toNat st.sessIn.length
  { st with sessIn := st.sessIn.drop c }

/-! ## Claim-side (specification-language) definitions -/

/-- Ascending run of naturals: `idxFrom i n = [i, i+1, …, i+n-1]`. -/
def idxFrom (i : Nat) : Nat → List Nat
  | 0 => []
  | n + 1 => i :: idxFrom (i + 1) n

/-- Claim-side: the 1-based indices in `1..n` not in the deletion set. -/
def specVisibleIndices (n : Nat) (del : List Int) : List Nat :=
  (idxFrom 1 n).filter (fun i => !del.contains ((i : Nat) : Int))

/-- Claim-side 1-based enumeration of a message list. -/
def enumFrom1 (i : Nat) : List MessageInfo → List (Nat × MessageInfo)
  | [] => []
  | m :: restMsgs => (i, m) :: enumFrom1 (i + 1) restMsgs

/-- Claim-side: sum of the sizes of the non-deleted messages. -/
def specVisibleSize (msgs : List MessageInfo) (del : List Int) : Int :=
  (((enumFrom1 1 msgs).filter (fun p => !del.contains ((p.1 : Nat) : Int))).map
    (fun p => p.2.size)).sum

/-- Byte-stuffing of one payload line, as the spec describes it. -/
def byteStuff (line : String) : String :=
  if startsWithDot line then "." ++ line else line

/-- The status line of a rendered response. -/
def statusLine (r : Response) : String :=
  (if r.OK then "+OK" else "-ERR")
    ++ (if r.Message ≠ "" then " " ++ r.Message else "") ++ "\r\n"

/-- A string that begins with a `.` not followed by another `.`
(the shape the terminator-collision property rules out). -/
def startsWithSingleDot (s : String) : Bool :=
  match s.data with
  | c1 :: c2 :: _ => c1 == '.' && c2 != '.'
  | [c1] => c1 == '.'
  | [] => false

/-- Concatenation of a list of strings. -/
def concatAll : List String → String
  | [] => ""
  | s :: restStrs => s ++ concatAll restStrs

/-! ## Concrete fixtures used by witnesses and counterexamples -/

/-- A freshly accepted plaintext session (`NewSession` with mode pop3,
not yet TLS-upgraded). -/
def baseSession : Session :=
  { state := State.StateAuthorization
    tlsState := TLSState.TLSStateNone
    hostname := "mail.example.com"
    listenerMode := ListenerMode.ModePop3
    tlsConfigPresent := true
    username := ""
    authSession := none
    saslServerSet := false
    saslMech := ""
    mailbox := ""
    store := none
    messageList := none
    deletedSet := [] }

/-- An authenticated session in TRANSACTION with three loaded messages
and message 2 already marked deleted. -/
def transSession : Session :=
  { baseSession with
    state := State.StateTransaction
    tlsState := TLSState.TLSStateActive
    username := "alice@example.com"
    mailbox := "alice@example.com"
    messageList := some [⟨"uidA", 120⟩, ⟨"uidB", 300⟩, ⟨"uidC", 7⟩]
    deletedSet := [2] }

/-- A TRANSACTION session with two messages where message 1 is already
marked deleted. -/
def c9sess : Session :=
  { baseSession with
    state := State.StateTransaction
    tlsState := TLSState.TLSStateActive
    messageList := some [⟨"u1", 200⟩, ⟨"u2", 300⟩]
    deletedSet := [1] }

/-- A provider configuration whose global authenticator denies all
credentials (sufficient for properties decided before authentication). -/
def denyAllPass : PassCmd :=
  { authProvider := fun _ _ => .error "denied", msgStore := none, domainProvider := none }

/-- Matching configuration for the AUTH command. -/
def denyAllAuth : AuthCmd :=
  { authProvider := fun _ _ => .error "denied", msgStore := none, domainProvider := none }

/-- All pipe writes succeed. -/
def allOkEnv : PipeEnv := {}

/-- Pipe state before a `GET abc123`: the `+DATA 10` header precedes a
10-byte payload and 5 further bytes. -/
def preRetrieveState : SPState :=
  { ready := true, handshakeDone := true, sessIn := "+DATA 10\r\n0123456789EXTRA".data }

/-- Pipe state just after that `GET` announced 10 bytes. -/
def retrievedState : SPState :=
  { ready := true, handshakeDone := true,
    sessIn := "0123456789EXTRA".data, sessOut := ["GET abc123\r\n"] }

/-- Store state after a failed handshake (e.g. `-ERR` on MAILBOX):
`handshakeDone` is set, `ready` is not, the auth pipe has been written
and closed once, and the mail-session has since made a reply available. -/
def failedHandshakeState : SPState :=
  { ready := false
    handshakeDone := true
    authWriteAttempts := 1
    authWrites := [authSignalText "user@example.com"]
    authCloseCount := 1
    sessIn := "+OK deleted\r\n".data
    sessOut := ["MAILBOX user@example.com\r\n"] }

/-! ## Helper lemmas -/

theorem strData_append (a b : String) : (a ++ b).data = a.data ++ b.data := rfl

theorem strExtData {a b : String} (h : a.data = b.data) : a = b := by
  cases a
  cases b
  exact congrArg String.mk (by simpa using h)

theorem strAppend_assoc (a b c : String) : a ++ b ++ c = a ++ (b ++ c) := by
  apply strExtData; simp [strData_append]

theorem strAppend_empty (a : String) : a ++ "" = a := by
  apply strExtData
  simp [strData_append, show ("" : String).data = [] from rfl]

theorem strEmpty_append (a : String) : "" ++ a = a := by
  apply strExtData
  simp [strData_append, show ("" : String).data = [] from rfl]

theorem countVisibleAux_spec (del : List Int) (msgs : List MessageInfo) :
    ∀ i, countVisibleAux del i msgs =
      (((idxFrom (i + 1) msgs.length).filter
        (fun j => !del.contains ((j : Nat) : Int))).length : Int) := by
  induction msgs with
  | nil => intro i; simp [countVisibleAux, idxFrom]
  | cons m restMsgs ih =>
    intro i
    have hc : (((i + 1 : Nat) : Int)) = (i : Int) + 1 := by push_cast; ring
    have hstep : countVisibleAux del i (m :: restMsgs)
        = (if del.contains ((i : Int) + 1) then 0 else 1)
          + countVisibleAux del (i + 1) restMsgs := rfl
    have hidx : idxFrom (i + 1) (m :: restMsgs).length
        = (i + 1) :: idxFrom (i + 1 + 1) restMsgs.length := rfl
    rw [hstep, hidx, List.filter_cons, ih (i + 1)]
    by_cases hmem : ((i : Int) + 1) ∈ del
    · simp [hmem, hc]
    · simp [hmem, hc]
      ring

theorem sumVisibleAux_spec (del : List Int) (msgs : List MessageInfo) :
    ∀ i, sumVisibleAux del i msgs =
      (((enumFrom1 (i + 1) msgs).filter
        (fun p => !del.contains ((p.1 : Nat) : Int))).map (fun p => p.2.size)).sum := by
  induction msgs with
  | nil => intro i; simp [sumVisibleAux, enumFrom1]
  | cons m restMsgs ih =>
    intro i
    have hc : (((i + 1 : Nat) : Int)) = (i : Int) + 1 := by push_cast; ring
    have hstep : sumVisibleAux del i (m :: restMsgs)
        = (if del.contains ((i : Int) + 1) then 0 else m.size)
          + sumVisibleAux del (i + 1) restMsgs := rfl
    have henum : enumFrom1 (i + 1) (m :: restMsgs)
        = (i + 1, m) :: enumFrom1 (i + 1 + 1) restMsgs := rfl
    rw [hstep, henum, List.filter_cons, ih (i + 1)]
    by_cases hmem : ((i : Int) + 1) ∈ del
    · simp [hmem, hc]
    · simp [hmem, hc]

/-! ## Claim theorems -/

/-- Claim C1: for every session in TRANSACTION state with an
initialised message list, STAT replies +OK whose count is the number of
1-based indices not in the deletion set and whose size is the sum of
the sizes of exactly those non-deleted messages. -/
theorem stat_reports_visible_count_and_size
    (sess : Session) (msgs : List MessageInfo)
    (hst : sess.state = State.StateTransaction)
    (hml : sess.messageList = some msgs) :
    statCommandExecute sess [] =
      ({ OK := true,
         Message := toString (((specVisibleIndices msgs.length sess.deletedSet).length : Int))
           ++ " " ++ toString (specVisibleSize msgs sess.deletedSet) }, sess) := by
  have hcount : sess.MessageCount =
      ((specVisibleIndices msgs.length sess.deletedSet).length : Int) := by
    simp [Session.MessageCount, hml, specVisibleIndices, countVisibleAux_spec]
  have hsize : sess.TotalSize = specVisibleSize msgs sess.deletedSet := by
    simp [Session.TotalSize, hml, specVisibleSize, sumVisibleAux_spec]
  simp [statCommandExecute, hst, hcount, hsize]

/-- Witness for C1 at a concrete three-message session with message 2
marked deleted. -/
theorem stat_reports_visible_count_and_size_witness :
    statCommandExecute transSession [] =
      ({ OK := true,
         Message := toString (((specVisibleIndices
             ([(⟨"uidA", 120⟩ : MessageInfo), ⟨"uidB", 300⟩, ⟨"uidC", 7⟩].length)
             transSession.deletedSet).length : Int))
           ++ " " ++ toString (specVisibleSize
             [⟨"uidA", 120⟩, ⟨"uidB", 300⟩, ⟨"uidC", 7⟩] transSession.deletedSet) },
        transSession) :=
  stat_reports_visible_count_and_size transSession
    [⟨"uidA", 120⟩, ⟨"uidB", 300⟩, ⟨"uidC", 7⟩] rfl rfl

/-- Claim C2: with an initialised message list of length N,
`GetMessage i` returns the i-th message exactly when `1 ≤ i ≤ N` and
`i` is unmarked; `ErrNoSuchMessage` exactly when `i` is out of range;
`ErrMessageDeleted` exactly when `i` is in range and marked. -/
theorem getMessage_trichotomy (sess : Session) (msgs : List MessageInfo)
    (hml : sess.messageList = some msgs) (i : Int) :
    (sess.GetMessage i = .ok (msgs.getD (i - 1).toNat ⟨"", 0⟩) ↔
      (1 ≤ i ∧ i ≤ (msgs.length : Int) ∧ sess.deletedSet.contains i = false)) ∧
    (sess.GetMessage i = .error SessionError.ErrNoSuchMessage ↔
      (i < 1 ∨ (msgs.length : Int) < i)) ∧
    (sess.GetMessage i = .error SessionError.ErrMessageDeleted ↔
      (1 ≤ i ∧ i ≤ (msgs.length : Int) ∧ sess.deletedSet.contains i = true)) := by
  by_cases hout : i < 1 ∨ i > (msgs.length : Int)
  · have hno : ¬ (1 ≤ i ∧ i ≤ (msgs.length : Int)) := by omega
    simp only [Session.GetMessage, hml, if_pos hout]
    refine ⟨?_, ?_, ?_⟩
    · constructor
      · intro h; exact absurd h (by simp)
      · rintro ⟨h1, h2, _⟩; exact absurd ⟨h1, h2⟩ hno
    · simpa using (by omega : i < 1 ∨ (msgs.length : Int) < i)
    · constructor
      · intro h; simp at h
      · rintro ⟨h1, h2, _⟩; exact absurd ⟨h1, h2⟩ hno
  · have hin : 1 ≤ i ∧ i ≤ (msgs.length : Int) := by omega
    have hnout : ¬ (i < 1 ∨ (msgs.length : Int) < i) := by omega
    cases hdel : sess.deletedSet.contains i with
    | true =>
      simp only [Session.GetMessage, hml, if_neg hout, hdel, if_pos rfl]
      refine ⟨?_, ?_, ?_⟩
      · constructor
        · intro h; simp at h
        · rintro ⟨_, _, hc⟩; simp [hdel] at hc
      · simpa using hnout
      · simp [hin]
    | false =>
      simp only [Session.GetMessage, hml, if_neg hout, hdel]
      refine ⟨?_, ?_, ?_⟩
      · simp [hin]
      · simpa using hnout
      · constructor
        · intro h; simp at h
        · rintro ⟨_, _, hc⟩; simp at hc

/-- Witness for C2 at the concrete session: message 1 is visible. -/
theorem getMessage_trichotomy_witness :
    (transSession.GetMessage 1 =
        .ok ([(⟨"uidA", 120⟩ : MessageInfo), ⟨"uidB", 300⟩, ⟨"uidC", 7⟩].getD
          ((1 : Int) - 1).toNat ⟨"", 0⟩) ↔
      (1 ≤ (1 : Int) ∧ (1 : Int) ≤ (([(⟨"uidA", 120⟩ : MessageInfo), ⟨"uidB", 300⟩,
        ⟨"uidC", 7⟩].length : Nat) : Int) ∧ transSession.deletedSet.contains 1 = false)) ∧
    (transSession.GetMessage 1 = .error SessionError.ErrNoSuchMessage ↔
      ((1 : Int) < 1 ∨ (([(⟨"uidA", 120⟩ : MessageInfo), ⟨"uidB", 300⟩,
        ⟨"uidC", 7⟩].length : Nat) : Int) < 1)) ∧
    (transSession.GetMessage 1 = .error SessionError.ErrMessageDeleted ↔
      (1 ≤ (1 : Int) ∧ (1 : Int) ≤ (([(⟨"uidA", 120⟩ : MessageInfo), ⟨"uidB", 300⟩,
        ⟨"uidC", 7⟩].length : Nat) : Int) ∧ transSession.deletedSet.contains 1 = true)) :=
  getMessage_trichotomy transSession [⟨"uidA", 120⟩, ⟨"uidB", 300⟩, ⟨"uidC", 7⟩] rfl 1

/-- Claim C10: a session that reaches TRANSACTION with a nil message
list still answers STAT with `+OK 0 0`, while GetMessage returns
ErrMailboxNotInitialized for every index. -/
theorem uninitialized_mailbox_stat_zero (sess : Session)
    (hst : sess.state = State.StateTransaction)
    (hml : sess.messageList = none) :
    statCommandExecute sess [] = ({ OK := true, Message := "0 0" }, sess) ∧
    ∀ i : Int, sess.GetMessage i = .error SessionError.ErrMailboxNotInitialized := by
  constructor
  · have hmsg : (toString (0 : Int)) ++ " " ++ toString (0 : Int) = "0 0" := rfl
    simp [statCommandExecute, hst, Session.MessageCount, Session.TotalSize, hml, hmsg]
  · intro i
    simp [Session.GetMessage, hml]

/-- Witness for C10: a session authenticated with no store configured. -/
theorem uninitialized_mailbox_stat_zero_witness :
    statCommandExecute { baseSession with state := State.StateTransaction } [] =
      ({ OK := true, Message := "0 0" },
        { baseSession with state := State.StateTransaction }) ∧
    ∀ i : Int, Session.GetMessage { baseSession with state := State.StateTransaction } i =
      .error SessionError.ErrMailboxNotInitialized :=
  uninitialized_mailbox_stat_zero { baseSession with state := State.StateTransaction } rfl rfl

/-- Claim C9 counterexample: in a session where message 1 is already
marked deleted, STAT reads `1 300`; DELE 2 (a valid message number)
followed by RSET makes STAT read `2 500`, because RSET clears every
deletion mark, not only the one DELE added.  The claim's universally
quantified restoration property is therefore false at this input. -/
theorem dele_rset_not_restored_counterexample :
    (statCommandExecute c9sess []).1.Message = "1 300" ∧
    (deleCommandExecute c9sess ["2"]).1.OK = true ∧
    (statCommandExecute
        (rsetCommandExecute (deleCommandExecute c9sess ["2"]).2 []).2 []).1.Message = "2 500" ∧
    ("2 500" : String) ≠ "1 300" := by
  refine ⟨?_, ?_, ?_, ?_⟩ <;> decide

/-- Claim C9 (amended): in TRANSACTION with **no message already marked
deleted**, DELE on a valid message number followed by RSET restores
STAT to its original value, and RSET replies +OK `maildrop has N
messages` where `N` is the restored visible count. -/
theorem dele_rset_restores_stat (sess : Session) (msgs : List MessageInfo)
    (arg : String) (i : Int)
    (hst : sess.state = State.StateTransaction)
    (hml : sess.messageList = some msgs)
    (hdel : sess.deletedSet = [])
    (ha : goParseInt arg = some i)
    (h1 : 1 ≤ i) (h2 : i ≤ (msgs.length : Int)) :
    (deleCommandExecute sess [arg]).1.OK = true ∧
    (rsetCommandExecute (deleCommandExecute sess [arg]).2 []).2 = sess ∧
    statCommandExecute (rsetCommandExecute (deleCommandExecute sess [arg]).2 []).2 []
      = statCommandExecute sess [] ∧
    (rsetCommandExecute (deleCommandExecute sess [arg]).2 []).1
      = { OK := true,
          Message := "maildrop has " ++ toString sess.MessageCount ++ " messages" } := by
  have hcond : ¬ (i < 1 ∨ i > (msgs.length : Int)) := by omega
  have hmark : sess.MarkDeleted i = .ok { sess with deletedSet := [i] } := by
    simp [Session.MarkDeleted, hml, hcond, hdel]
  have hdele : deleCommandExecute sess [arg]
      = ({ OK := true, Message := "message " ++ toString i ++ " deleted" },
         { sess with deletedSet := [i] }) := by
    simp [deleCommandExecute, hst, ha, hmark]
  have hclean : ({ sess with state := State.StateTransaction, deletedSet := [] } : Session)
      = sess := by
    cases sess
    simp_all
  have hrset : rsetCommandExecute { sess with deletedSet := [i] } []
      = ({ OK := true,
           Message := "maildrop has " ++ toString sess.MessageCount ++ " messages" }, sess) := by
    have hstate : ({ sess with deletedSet := [i] } : Session).state = State.StateTransaction := hst
    simp [rsetCommandExecute, hstate, hst, Session.ResetDeletions, hclean]
  refine ⟨by simp [hdele], by simp [hdele, hrset], by simp [hdele, hrset], by simp [hdele, hrset]⟩

/-- Witness for the amended C9 at a concrete clean session, deleting
message 3. -/
theorem dele_rset_restores_stat_witness :
    (deleCommandExecute { transSession with deletedSet := [] } ["3"]).1.OK = true ∧
    (rsetCommandExecute (deleCommandExecute { transSession with deletedSet := [] } ["3"]).2 []).2
      = { transSession with deletedSet := [] } ∧
    statCommandExecute
        (rsetCommandExecute
          (deleCommandExecute { transSession with deletedSet := [] } ["3"]).2 []).2 []
      = statCommandExecute { transSession with deletedSet := [] } [] ∧
    (rsetCommandExecute (deleCommandExecute { transSession with deletedSet := [] } ["3"]).2 []).1
      = { OK := true,
          Message := "maildrop has "
            ++ toString (Session.MessageCount { transSession with deletedSet := [] })
            ++ " messages" } :=
  dele_rset_restores_stat { transSession with deletedSet := [] }
    [⟨"uidA", 120⟩, ⟨"uidB", 300⟩, ⟨"uidC", 7⟩] "3" 3 rfl rfl rfl (by decide)
    (by decide) (by decide)

/-- Claim C7: in AUTHORIZATION with TLS not active, USER, PASS and AUTH
each reply `-ERR TLS required for authentication` and leave the session
(state, stored username, auth session, SASL state) unchanged, for any
arguments and any provider configuration. -/
theorem tls_gate_blocks_auth_commands
    (p : PassCmd) (a : AuthCmd)
    (plainStep : Session → List Nat → Response × Session)
    (decodeB64 : String → Except String (List Nat))
    (sess : Session) (args : List String)
    (hst : sess.state = State.StateAuthorization)
    (htls : sess.tlsState = TLSState.TLSStateNone) :
    userCommandExecute sess args
      = ({ OK := false, Message := "TLS required for authentication" }, sess) ∧
    passCommandExecute p sess args
      = ({ OK := false, Message := "TLS required for authentication" }, sess) ∧
    authCommandExecute a plainStep decodeB64 sess args
      = ({ OK := false, Message := "TLS required for authentication" }, sess) := by
  have htlsb : sess.IsTLSActive = false := by
    simp [Session.IsTLSActive, htls]
  refine ⟨?_, ?_, ?_⟩
  · simp [userCommandExecute, hst, htlsb]
  · simp [passCommandExecute, hst, htlsb]
  · simp [authCommandExecute, hst, htlsb]

/-- Witness for C7: fresh pop3-mode session, concrete argument list and
a deny-all provider configuration. -/
theorem tls_gate_blocks_auth_commands_witness :
    userCommandExecute baseSession ["PLAIN"]
      = ({ OK := false, Message := "TLS required for authentication" }, baseSession) ∧
    passCommandExecute denyAllPass baseSession ["PLAIN"]
      = ({ OK := false, Message := "TLS required for authentication" }, baseSession) ∧
    authCommandExecute denyAllAuth (fun s _ => ({ }, s)) (fun _ => .error "bad")
        baseSession ["PLAIN"]
      = ({ OK := false, Message := "TLS required for authentication" }, baseSession) :=
  tls_gate_blocks_auth_commands denyAllPass denyAllAuth (fun s _ => ({ }, s))
    (fun _ => .error "bad") baseSession ["PLAIN"] rfl rfl

theorem byteStuff_eq (line : String) :
    ((if startsWithDot line then "." else "") : String) ++ line = byteStuff line := by
  by_cases h : startsWithDot line
  · simp [byteStuff, h]
  · simp [byteStuff, h, strEmpty_append]

theorem foldl_render_lines (L : List String) (s : String) :
    L.foldl (fun acc line => acc ++ (if startsWithDot line then "." else "") ++ line ++ "\r\n") s
      = s ++ concatAll (L.map (fun l => byteStuff l ++ "\r\n")) := by
  induction L generalizing s with
  | nil => simp [concatAll, strAppend_empty]
  | cons a restLines ih =>
    simp only [List.foldl_cons, List.map_cons, concatAll]
    rw [ih]
    apply strExtData
    by_cases h : startsWithDot a <;>
      simp [h, byteStuff, strData_append, show ("" : String).data = [] from rfl,
        List.append_assoc]

theorem byteStuff_no_single_dot (l : String) : startsWithSingleDot (byteStuff l) = false := by
  by_cases h : startsWithDot l
  · have hdata : (byteStuff l).data = '.' :: l.data := by
      simp [byteStuff, h, strData_append, show ("." : String).data = ['.'] from rfl]
    cases hl : l.data with
    | nil => simp [startsWithDot, hl] at h
    | cons c restChars =>
      have hc : c = '.' := by simpa [startsWithDot, hl] using h
      subst hc
      simp [startsWithSingleDot, hdata, hl]
  · have hdata : byteStuff l = l := by simp [byteStuff, h]
    rw [hdata]
    cases hl : l.data with
    | nil => simp [startsWithSingleDot, hl]
    | cons c restChars =>
      have hc : (c == '.') = false := by simpa [startsWithDot, hl] using h
      cases restChars with
      | nil => simp [startsWithSingleDot, hl, hc]
      | cons c2 r2 => simp [startsWithSingleDot, hl, hc]

/-- Claim C8: rendering a non-continuation response that has payload
lines yields the status line, then each payload line CRLF-terminated
with an extra `.` prepended to lines beginning with `.`, then the
terminator `.\r\n`; consequently no rendered payload line begins with a
single `.`. -/
theorem render_multiline_byte_stuffing (r : Response)
    (hcont : r.Continuation = false)
    (hlines : r.Lines ≠ [])
    (hfree : ∀ l ∈ r.Lines, ∀ c ∈ l.data, c ≠ '\r' ∧ c ≠ '\n') :
    Response.render r
      = statusLine r ++ concatAll (r.Lines.map (fun l => byteStuff l ++ "\r\n")) ++ ".\r\n" ∧
    ∀ l ∈ r.Lines, startsWithSingleDot (byteStuff l) = false := by
  constructor
  · have hlen : r.Lines.length > 0 := by
      cases hL : r.Lines
      · exact absurd hL hlines
      · simp
    unfold Response.render
    rw [if_neg (by simp [hcont])]
    rw [if_pos hlen, foldl_render_lines]
    rfl
  · intro l _
    exact byteStuff_no_single_dot l

/-- Witness for C8 at a concrete multi-line response containing a line
that begins with a dot. -/
theorem render_multiline_byte_stuffing_witness :
    Response.render { OK := true, Message := "ok", Lines := ["alpha", ".beta"] }
      = statusLine { OK := true, Message := "ok", Lines := ["alpha", ".beta"] }
        ++ concatAll ((["alpha", ".beta"] : List String).map (fun l => byteStuff l ++ "\r\n"))
        ++ ".\r\n" ∧
    ∀ l ∈ (["alpha", ".beta"] : List String), startsWithSingleDot (byteStuff l) = false :=
  render_multiline_byte_stuffing { OK := true, Message := "ok", Lines := ["alpha", ".beta"] }
    rfl (by decide) (by decide)

/-- Claim C3 evaluation at the failing input: with the handshake
already attempted and failed (`handshakeDone` set, `ready` clear),
`Delete` does **not** return an error immediately — it writes
`DELETE abc123` on the session pipe, consumes the pending reply, and
returns success, contradicting the terminal-failure contract stated in
the store's own documentation. -/
theorem delete_after_failed_handshake_performs_io :
    spDelete allOkEnv failedHandshakeState "user@example.com" "abc123"
      = (.ok (),
         { failedHandshakeState with
           sessIn := []
           sessOut := failedHandshakeState.sessOut ++ ["DELETE abc123\r\n"] }) := by
  rfl

/-- Claim C4 counterexample: on the invalid-mailbox-token control path
the auth pipe is written zero times, not exactly once, because
`validateToken` rejects the mailbox before `writeAuthSignal` runs; the
deferred close still closes the pipe exactly once. -/
theorem handshake_invalid_mailbox_writes_nothing :
    (handshake allOkEnv ({} : SPState) "bad box").2.authWriteAttempts = 0 ∧
    ¬ ((handshake allOkEnv ({} : SPState) "bad box").2.authWriteAttempts = 1) ∧
    (handshake allOkEnv ({} : SPState) "bad box").2.authCloseCount = 1 := by
  refine ⟨rfl, by decide, rfl⟩

/-- Claim C4 (amended): on every control path of the handshake the auth
pipe is closed exactly once; it is written exactly once whenever the
mailbox token passes validation (success, failed signal write, failed
MAILBOX send, `-ERR` MAILBOX reply) and zero times when validation
rejects the token; and once `handshakeDone` is set, `ensureReady`
returns without touching the store state, so the handshake runs at most
once per store. -/
theorem auth_pipe_write_close_discipline (env : PipeEnv) (st : SPState) (mailbox : String) :
    (handshake env st mailbox).2.authCloseCount = st.authCloseCount + 1 ∧
    (handshake env st mailbox).2.authWriteAttempts
      = st.authWriteAttempts
        + (match validateToken "mailbox" mailbox with | .ok _ => 1 | .error _ => 0) ∧
    (ensureReady env { st with handshakeDone := true } mailbox).2
      = { st with handshakeDone := true } := by
  refine ⟨?_, ?_, ?_⟩
  · unfold handshake sessWrite
    cases validateToken "mailbox" mailbox with
    | error e => rfl
    | ok u =>
      cases hab : env.authWriteOk with
      | false => rfl
      | true =>
        cases haw : env.sessWriteOk with
        | false => simp [hab, haw]
        | true =>
          cases hr : readLine st.sessIn with
          | error e => simp [hab, haw, hr]
          | ok p =>
            cases hpfx : strHasPfx (trimRightCRLF p.1) "+OK" with
            | false => simp [hab, haw, hr, hpfx]
            | true => simp [hab, haw, hr, hpfx]
  · unfold handshake sessWrite
    cases validateToken "mailbox" mailbox with
    | error e => simp
    | ok u =>
      cases hab : env.authWriteOk with
      | false => simp [hab]
      | true =>
        cases haw : env.sessWriteOk with
        | false => simp [hab, haw]
        | true =>
          cases hr : readLine st.sessIn with
          | error e => simp [hab, haw, hr]
          | ok p =>
            cases hpfx : strHasPfx (trimRightCRLF p.1) "+OK" with
            | false => simp [hab, haw, hr, hpfx]
            | true => simp [hab, haw, hr, hpfx]
  · unfold ensureReady
    split
    · rfl
    · rfl

/-- Claim C5: for the reader returned by Retrieve announcing an
`n`-byte payload, reading any `k ≤ n` bytes and then closing consumes
exactly `n` bytes from the shared pipe reader — the draining close
removes the remaining `n - k` — so the next store operation reads the
first byte after the payload. -/
theorem retrieve_close_drains_payload (env : PipeEnv) (st st' : SPState)
    (mailbox uid : String) (n : Nat)
    (h : spRetrieve env st mailbox uid = (.ok ((n : Nat) : Int), st'))
    (k : Nat) (hk : k ≤ n) (hn : n ≤ st'.sessIn.length) :
    readerClose (readerReadN st' ((n : Nat) : Int) k).1 (readerReadN st' ((n : Nat) : Int) k).2
      = { st' with sessIn := st'.sessIn.drop n } := by
  have htn : ((n : Int)).toNat = n := by simp
  have hc1 : min k (min ((n : Int)).toNat st'.sessIn.length) = k := by
    rw [htn]
    omega
  have hrem : (((n : Int)) - ((k : Nat) : Int)).toNat = n - k := by omega
  have hlen : (st'.sessIn.drop k).length = st'.sessIn.length - k := by simp
  simp only [readerReadN, readerClose, hc1]
  have hc2 : min ((((n : Int)) - ((k : Nat) : Int)).toNat) ((st'.sessIn.drop k).length)
      = n - k := by
    rw [hrem, hlen]
    omega
  rw [hc2]
  have hdd : (st'.sessIn.drop k).drop (n - k) = st'.sessIn.drop n := by
    rw [List.drop_drop]
    congr 1
    omega
  rw [hdd]

/-- Witness for C5: concrete GET of a 10-byte payload, reading 4 bytes
before closing. -/
theorem retrieve_close_drains_payload_witness :
    readerClose (readerReadN retrievedState ((10 : Nat) : Int) 4).1
        (readerReadN retrievedState ((10 : Nat) : Int) 4).2
      = { retrievedState with sessIn := retrievedState.sessIn.drop 10 } :=
  retrieve_close_drains_payload allOkEnv preRetrieveState retrievedState
    "user@example.com" "abc123" 10 rfl 4 (by decide) (by decide)

theorem takeWhile_append_all {α : Type} (p : α → Bool) (l r : List α)
    (h : ∀ c ∈ l, p c = true) :
    (l ++ r).takeWhile p = l ++ r.takeWhile p := by
  induction l with
  | nil => simp
  | cons a t ih =>
    have ha : p a = true := h a (by simp)
    simp [List.takeWhile_cons, ha, ih (fun c hc => h c (by simp [hc]))]

theorem dropWhile_append_all {α : Type} (p : α → Bool) (l r : List α)
    (h : ∀ c ∈ l, p c = true) :
    (l ++ r).dropWhile p = r.dropWhile p := by
  induction l with
  | nil => simp
  | cons a t ih =>
    have ha : p a = true := h a (by simp)
    simp [List.dropWhile_cons, ha, ih (fun c hc => h c (by simp [hc]))]

theorem dropWhile_all_false {α : Type} (p : α → Bool) (l : List α)
    (h : ∀ c ∈ l, p c = false) : l.dropWhile p = l := by
  cases l with
  | nil => simp
  | cons a t => simp [List.dropWhile_cons, h a (by simp)]

theorem readLine_exact (l r : List Char) (h : ∀ c ∈ l, c ≠ '\n') :
    readLine (l ++ '\n' :: r) = .ok (⟨l ++ ['\n']⟩, r) := by
  have hall : ∀ c ∈ l, (c != '\n') = true := fun c hc => by simpa using h c hc
  unfold readLine
  rw [dropWhile_append_all _ l ('\n' :: r) hall, takeWhile_append_all _ l ('\n' :: r) hall]
  simp [List.dropWhile_cons, List.takeWhile_cons]

theorem trimRightCRLF_append (l : List Char)
    (h : ∀ c ∈ l, (c = '\r' || c = '\n') = false) :
    trimRightCRLF ⟨l ++ ['\r', '\n']⟩ = ⟨l⟩ := by
  unfold trimRightCRLF
  have hrev : (String.mk (l ++ ['\r', '\n'])).data.reverse = '\n' :: '\r' :: l.reverse := by
    simp
  rw [hrev]
  simp only [List.dropWhile_cons]
  norm_num
  rw [dropWhile_all_false _ l.reverse (fun c hc => h c (by simpa using hc))]
  simp

theorem fieldsAux_nospace (w : List Char) :
    ∀ cur, (cur = [] → w ≠ []) → (∀ c ∈ w, isSpaceGo c = false) →
      fieldsAux w cur = [⟨cur.reverse ++ w⟩] := by
  induction w with
  | nil =>
    intro cur hne h
    have hcur : cur ≠ [] := by
      intro hc
      exact (hne hc) rfl
    have : cur.isEmpty = false := by
      cases cur
      · exact absurd rfl hcur
      · rfl
    simp [fieldsAux, this]
  | cons c t ih =>
    intro cur hne h
    have hc : isSpaceGo c = false := h c (by simp)
    rw [show fieldsAux (c :: t) cur
        = if isSpaceGo c then
            (if cur.isEmpty then fieldsAux t [] else ⟨cur.reverse⟩ :: fieldsAux t [])
          else fieldsAux t (c :: cur) from rfl]
    rw [hc]
    simp only [Bool.false_eq_true, if_false]
    rw [ih (c :: cur) (by simp) (fun x hx => h x (by simp [hx]))]
    congr 1
    apply strExtData
    simp

theorem fields_space_word (w : List Char) (hne : w ≠ [])
    (h : ∀ c ∈ w, isSpaceGo c = false) :
    fields ⟨' ' :: w⟩ = [⟨w⟩] := by
  unfold fields
  rw [show (String.mk (' ' :: w)).data = ' ' :: w from rfl]
  rw [show fieldsAux (' ' :: w) []
      = if isSpaceGo ' ' then
          (if ([] : List Char).isEmpty then fieldsAux w [] else ⟨[].reverse⟩ :: fieldsAux w [])
        else fieldsAux w (' ' :: []) from rfl]
  rw [show isSpaceGo ' ' = true from rfl]
  simp only [if_true, List.isEmpty_nil]
  rw [fieldsAux_nospace w [] (fun _ => hne) h]
  simp

theorem trimSpace_space_word (w : List Char) (h : ∀ c ∈ w, isSpaceGo c = false) :
    trimSpace ⟨' ' :: w⟩ = ⟨w⟩ := by
  unfold trimSpace
  rw [show (String.mk (' ' :: w)).data = ' ' :: w from rfl]
  rw [show (' ' :: w).dropWhile isSpaceGo = w.dropWhile isSpaceGo from by
    simp [List.dropWhile_cons, show isSpaceGo ' ' = true from rfl]]
  rw [dropWhile_all_false _ w h]
  rw [dropWhile_all_false _ w.reverse (fun c hc => h c (by simpa using hc))]
  simp

theorem digitsValAux_digits (cs : List Char) :
    ∀ acc v, digitsValAux acc cs = some v → ∀ c ∈ cs, isDigitGo c = true := by
  induction cs with
  | nil =>
    intro acc v _ c hc
    simp at hc
  | cons a t ih =>
    intro acc v h c hc
    unfold digitsValAux at h
    by_cases ha : isDigitGo a
    · rw [if_pos ha] at h
      rcases List.mem_cons.mp hc with rfl | hmem
      · exact ha
      · exact ih _ v h c hmem
    · rw [if_neg ha] at h
      exact absurd h (by simp)

theorem digit_not_space (c : Char) (h : isDigitGo c = true) : isSpaceGo c = false := by
  by_contra hs
  have hs' : isSpaceGo c = true := by simpa using hs
  have hor : ((c = ' ' ∨ c = '\t') ∨ c = '\n') ∨ c = '\r' := by
    simpa [isSpaceGo] using hs'
  rcases hor with ((rfl | rfl) | rfl) | rfl <;> exact absurd h (by decide)

theorem not_space_ne (c : Char) (h : isSpaceGo c = false) :
    c ≠ ' ' ∧ c ≠ '\t' ∧ c ≠ '\n' ∧ c ≠ '\r' := by
  refine ⟨?_, ?_, ?_, ?_⟩ <;> rintro rfl <;> simp [isSpaceGo] at h

theorem goParseInt_chars (s : String) (c : Int) (h : goParseInt s = some c) :
    s.data ≠ [] ∧ ∀ ch ∈ s.data, isSpaceGo ch = false := by
  cases hd : s.data with
  | nil =>
    simp only [goParseInt, hd] at h
    exact absurd h (by simp)
  | cons a t =>
    simp only [goParseInt, hd] at h
    refine ⟨by simp, ?_⟩
    intro ch hch
    by_cases ha : a = '-'
    · rw [if_pos ha] at h
      by_cases ht : t.isEmpty
      · rw [if_pos ht] at h
        simp at h
      · rw [if_neg ht] at h
        cases hn : digitsValAux 0 t with
        | none =>
          rw [hn] at h
          simp at h
        | some n =>
          rcases List.mem_cons.mp hch with rfl | hmem
          · rw [ha]
            decide
          · exact digit_not_space ch (digitsValAux_digits t 0 n hn ch hmem)
    · rw [if_neg ha] at h
      by_cases hb : a = '+'
      · rw [if_pos hb] at h
        by_cases ht : t.isEmpty
        · rw [if_pos ht] at h
          simp at h
        · rw [if_neg ht] at h
          cases hn : digitsValAux 0 t with
          | none =>
            rw [hn] at h
            simp at h
          | some n =>
            rcases List.mem_cons.mp hch with rfl | hmem
            · rw [hb]
              decide
            · exact digit_not_space ch (digitsValAux_digits t 0 n hn ch hmem)
      · rw [if_neg hb] at h
        cases hn : digitsValAux 0 (a :: t) with
        | none =>
          rw [hn] at h
          simp at h
        | some n =>
          exact digit_not_space ch (digitsValAux_digits (a :: t) 0 n hn ch hch)

/-- Claim C6 counterexample: with the mail-session announcing
`+DATA -5`, Retrieve returns the reader successfully (announced size
−5) instead of an error — the negative payload size is not rejected
anywhere in `sessionPipeStore.Retrieve`. -/
theorem retrieve_accepts_negative_size :
    (spRetrieve allOkEnv ({ ready := true, sessIn := "+DATA -5\r\n".data } : SPState)
      "user@example.com" "abc123").1 = .ok (-5) := by
  rfl

/-- Claim C6 (amended): List rejects a parsed message count that is
negative or above 10,000,000, as claimed; Retrieve, however, performs
no sign check on the announced payload size and returns successfully
even when the reported size is negative (the LimitReader then simply
yields no bytes). -/
theorem list_count_cap_and_retrieve_negative :
    (∀ (env : PipeEnv) (st : SPState) (mailbox cStr : String) (c : Int) (restIn : List Char),
      st.ready = true → env.sessWriteOk = true →
      st.sessIn = ("+OK " ++ cStr ++ "\r\n").data ++ restIn →
      goParseInt cStr = some c →
      (c < 0 ∨ c > maxListCount) →
      (spList env st mailbox).1 = .error ("LIST: unreasonable count " ++ toString c)) ∧
    (∀ (env : PipeEnv) (st : SPState) (mailbox uid sStr : String) (c : Int) (restIn : List Char),
      env.sessWriteOk = true →
      st.sessIn = ("+DATA " ++ sStr ++ "\r\n").data ++ restIn →
      validateToken "uid" uid = .ok () →
      goParseInt sStr = some c →
      c < 0 →
      (spRetrieve env st mailbox uid).1 = .ok c) := by
  constructor
  · intro env st mailbox cStr c restIn hready hwok hin hp hcap
    obtain ⟨hne, hns⟩ := goParseInt_chars cStr c hp
    have hdata : st.sessIn
        = ('+' :: 'O' :: 'K' :: ' ' :: (cStr.data ++ ['\r'])) ++ '\n' :: restIn := by
      rw [hin]
      simp [strData_append, show ("+OK " : String).data = ['+', 'O', 'K', ' '] from rfl,
        show ("\r\n" : String).data = ['\r', '\n'] from rfl]
    have hnl : ∀ ch ∈ ('+' :: 'O' :: 'K' :: ' ' :: (cStr.data ++ ['\r'])), ch ≠ '\n' := by
      intro ch hch
      simp only [List.mem_cons, List.mem_append, List.mem_singleton, List.not_mem_nil,
        or_false] at hch
      rcases hch with rfl | rfl | rfl | rfl | hmem | rfl
      · decide
      · decide
      · decide
      · decide
      · exact (not_space_ne ch (hns ch hmem)).2.2.1
      · decide
    have hread : readLine st.sessIn
        = .ok (⟨('+' :: 'O' :: 'K' :: ' ' :: (cStr.data ++ ['\r'])) ++ ['\n']⟩, restIn) := by
      rw [hdata]
      exact readLine_exact _ restIn hnl
    have hncrlf : ∀ ch ∈ ('+' :: 'O' :: 'K' :: ' ' :: cStr.data),
        (ch = '\r' || ch = '\n') = false := by
      intro ch hch
      simp only [List.mem_cons] at hch
      rcases hch with rfl | rfl | rfl | rfl | hmem
      · decide
      · decide
      · decide
      · decide
      · have hn := not_space_ne ch (hns ch hmem)
        simp [hn.2.2.1, hn.2.2.2]
    have htrim : trimRightCRLF ⟨'+' :: 'O' :: 'K' :: ' ' :: (cStr.data ++ ['\r', '\n'])⟩
        = ⟨'+' :: 'O' :: 'K' :: ' ' :: cStr.data⟩ :=
      trimRightCRLF_append ('+' :: 'O' :: 'K' :: ' ' :: cStr.data) hncrlf
    have hpfx : strHasPfx ⟨'+' :: 'O' :: 'K' :: ' ' :: cStr.data⟩ "+OK" = true := rfl
    have htp : trimPfx ⟨'+' :: 'O' :: 'K' :: ' ' :: cStr.data⟩ "+OK" = ⟨' ' :: cStr.data⟩ := rfl
    have hfs : fields ⟨' ' :: cStr.data⟩ = [cStr] := fields_space_word cStr.data hne hns
    have hens : ensureReady env st mailbox = (.ok (), st) := by
      unfold ensureReady
      rw [if_pos hready]
    have hw : sessWrite env st "LIST\r\n"
        = .ok { st with sessOut := st.sessOut ++ ["LIST\r\n"] } := by
      unfold sessWrite
      simp [hwok]
    simp [spList, hens, hw, hread, htrim, hpfx, htp, hfs, hp, hcap]
  · intro env st mailbox uid sStr c restIn hwok hin hval hp hneg
    obtain ⟨hne, hns⟩ := goParseInt_chars sStr c hp
    have hdata : st.sessIn
        = ('+' :: 'D' :: 'A' :: 'T' :: 'A' :: ' ' :: (sStr.data ++ ['\r'])) ++ '\n' :: restIn := by
      rw [hin]
      simp [strData_append,
        show ("+DATA " : String).data = ['+', 'D', 'A', 'T', 'A', ' '] from rfl,
        show ("\r\n" : String).data = ['\r', '\n'] from rfl]
    have hnl : ∀ ch ∈ ('+' :: 'D' :: 'A' :: 'T' :: 'A' :: ' ' :: (sStr.data ++ ['\r'])),
        ch ≠ '\n' := by
      intro ch hch
      simp only [List.mem_cons, List.mem_append, List.mem_singleton, List.not_mem_nil,
        or_false] at hch
      rcases hch with rfl | rfl | rfl | rfl | rfl | rfl | hmem | rfl
      · decide
      · decide
      · decide
      · decide
      · decide
      · decide
      · exact (not_space_ne ch (hns ch hmem)).2.2.1
      · decide
    have hread : readLine st.sessIn
        = .ok (⟨('+' :: 'D' :: 'A' :: 'T' :: 'A' :: ' ' :: (sStr.data ++ ['\r'])) ++ ['\n']⟩,
            restIn) := by
      rw [hdata]
      exact readLine_exact _ restIn hnl
    have hncrlf : ∀ ch ∈ ('+' :: 'D' :: 'A' :: 'T' :: 'A' :: ' ' :: sStr.data),
        (ch = '\r' || ch = '\n') = false := by
      intro ch hch
      simp only [List.mem_cons] at hch
      rcases hch with rfl | rfl | rfl | rfl | rfl | rfl | hmem
      · decide
      · decide
      · decide
      · decide
      · decide
      · decide
      · have hn := not_space_ne ch (hns ch hmem)
        simp [hn.2.2.1, hn.2.2.2]
    have htrim : trimRightCRLF
          ⟨'+' :: 'D' :: 'A' :: 'T' :: 'A' :: ' ' :: (sStr.data ++ ['\r', '\n'])⟩
        = ⟨'+' :: 'D' :: 'A' :: 'T' :: 'A' :: ' ' :: sStr.data⟩ :=
      trimRightCRLF_append ('+' :: 'D' :: 'A' :: 'T' :: 'A' :: ' ' :: sStr.data) hncrlf
    have hpfx : strHasPfx ⟨'+' :: 'D' :: 'A' :: 'T' :: 'A' :: ' ' :: sStr.data⟩ "+DATA"
        = true := rfl
    have htp : trimPfx ⟨'+' :: 'D' :: 'A' :: 'T' :: 'A' :: ' ' :: sStr.data⟩ "+DATA"
        = ⟨' ' :: sStr.data⟩ := rfl
    have hts : trimSpace ⟨' ' :: sStr.data⟩ = sStr := trimSpace_space_word sStr.data hns
    have hsw : sessWrite env st ("GET " ++ uid ++ "\r\n")
        = .ok { st with sessOut := st.sessOut ++ ["GET " ++ uid ++ "\r\n"] } := by
      unfold sessWrite
      simp [hwok]
    simp [spRetrieve, hval, hsw, hread, htrim, hpfx, htp, hts, hp]

/-- Witness for the amended C6: a reported count of 10,000,001 makes
List fail, and Retrieve accepts the announced size −5. -/
theorem list_count_cap_and_retrieve_negative_witness :
    (spList allOkEnv
        ({ ready := true, sessIn := ("+OK " ++ "10000001" ++ "\r\n").data ++ [] } : SPState)
        "m").1
      = .error ("LIST: unreasonable count " ++ toString (10000001 : Int)) ∧
    (spRetrieve allOkEnv
        ({ sessIn := ("+DATA " ++ "-5" ++ "\r\n").data ++ [] } : SPState) "m" "abc123").1
      = .ok (-5) :=
  ⟨list_count_cap_and_retrieve_negative.1 allOkEnv
      { ready := true, sessIn := ("+OK " ++ "10000001" ++ "\r\n").data ++ [] } "m" "10000001"
      10000001 [] rfl rfl rfl (by decide) (by decide),
   list_count_cap_and_retrieve_negative.2 allOkEnv
      { sessIn := ("+DATA " ++ "-5" ++ "\r\n").data ++ [] } "m" "abc123" "-5" (-5) [] rfl rfl
      rfl (by decide) (by decide)⟩

end Pop3D
